import Mathlib

/-!
Verification of the shell-mcp-server repository.

Python strings are modelled as lists of unicode characters; paths are
strings handled by the functions of posixpath (the POSIX branch of the
server; the win32 branch of the source is not modelled).
-/

set_option maxRecDepth 4096

/-- A Python `str`, modelled as its sequence of characters. -/
abbrev Str := List Char

/-- Inject a Lean string literal into the model. -/
def chars (s : String) : Str := s.data

/-- Python `s.startswith(pre)`. -/
def pyStartswith (s pre : Str) : Bool := pre.isPrefixOf s

/-- Python `s.endswith(suf)`. -/
def pyEndswith (s suf : Str) : Bool := suf.isSuffixOf s

/-- Python `s.split(sep)` for a one-character separator (as in `path.split(sep)`
with `sep = chr 47` in posixpath.normpath). -/
def splitSep (sep : Char) : Str → List Str
  | [] => [[]]
  | c :: rest =>
    match splitSep sep rest with
    | [] => [[]]
    | s :: ss => if c = sep then [] :: s :: ss else (c :: s) :: ss

/-- Python `sep.join(comps)` for the one-character separator of posixpath. -/
def joinComps (sep : Char) : List Str → Str
  | [] => []
  | [c] => c
  | c :: cs => c ++ sep :: joinComps sep cs

/-- posixpath.isabs: `s.startswith(sep)`. -/
def isabs (p : Str) : Bool := pyStartswith p (chars "/")

/-- The `initial_slashes` count of posixpath.normpath: 1 if the path starts with
the separator, promoted to 2 when it starts with exactly two separators
(POSIX allows that special case), 0 otherwise. -/
def initialSlashes (p : Str) : Nat :=
  if pyStartswith p (chars "/") then
    if pyStartswith p (chars "//") ∧ ¬ pyStartswith p (chars "///") then 2 else 1
  else 0

/-- The component loop of posixpath.normpath.  `new_comps` is kept reversed
(Python appends to and pops from the end of the list; here the head plays the
role of the end).  `hasSlashes` is the truthiness of `initial_slashes`. -/
def normComps (hasSlashes : Bool) : List Str → List Str → List Str
  | acc, [] => acc.reverse
  | acc, comp :: rest =>
    if comp = [] ∨ comp = chars "." then normComps hasSlashes acc rest
    else if comp ≠ chars ".." ∨ (hasSlashes = false ∧ acc = []) ∨
        (acc ≠ [] ∧ acc.head? = some (chars "..")) then
      normComps hasSlashes (comp :: acc) rest
    else if acc ≠ [] then normComps hasSlashes acc.tail rest
    else normComps hasSlashes acc rest

/-- posixpath.normpath: collapse empty and `.` segments and resolve `..`
segments lexically, keeping the leading slashes. -/
def normpath (p : Str) : Str :=
  if p = [] then chars "."
  else
    let slashes := initialSlashes p
    let comps := normComps (slashes ≠ 0) [] (splitSep '/' p)
    let res := List.replicate slashes '/' ++ joinComps '/' comps
    if res = [] then chars "." else res

/-- posixpath.join restricted to two arguments, which is how the source uses it
(via os.path.abspath joining the process working directory with the path). -/
def pjoin (a b : Str) : Str :=
  if isabs b then b
  else if a = [] ∨ pyEndswith a (chars "/") then a ++ b
  else a ++ '/' :: b

/-- os.path.abspath on POSIX: join with the current working directory when the
path is relative, then normalize.  `osCwd` stands for `os.getcwd()`. -/
def abspath (osCwd p : Str) : Str :=
  if isabs p then normpath p else normpath (pjoin osCwd p)

/-- Python `dict` lookup for string-keyed, string-valued dictionaries
(`d[k]` / `k in d`), with the dictionary represented as its key-value pairs. -/
def dictLookup : List (Str × Str) → Str → Option Str
  | [], _ => none
  | (k, v) :: rest, key => if k = key then some v else dictLookup rest key

/-- The relevant fields of `Settings` (config.py).  APP_NAME and APP_VERSION
play no part in any claim and are omitted. -/
structure Settings where
  COMMAND_TIMEOUT : Nat
  ALLOWED_DIRECTORIES : List Str
  ALLOWED_SHELLS : List (Str × Str)

/-- `Settings.__init__(directories, shells)`: the directories are passed
through `os.path.abspath` and the shells stored as given.  COMMAND_TIMEOUT is
loaded by pydantic from the environment with default 30; it is an explicit
argument here. -/
def Settings.make (commandTimeout : Nat) (osCwd : Str) (directories : List Str)
    (shells : List (Str × Str)) : Settings :=
  { COMMAND_TIMEOUT := commandTimeout
    ALLOWED_DIRECTORIES := directories.map (abspath osCwd)
    ALLOWED_SHELLS := shells }

/-- `Settings.is_path_allowed`: take `os.path.abspath(path)` and test whether
any allowed directory is a string prefix of it (`str.startswith`). -/
def Settings.is_path_allowed (s : Settings) (osCwd : Str) (path : Str) : Bool :=
  let abs_path := abspath osCwd path
  s.ALLOWED_DIRECTORIES.any (fun allowed_dir => pyStartswith abs_path allowed_dir)

/-- The single-quote character. -/
def quoteS : Char := Char.ofNat 39

/-- The double-quote character. -/
def quoteD : Char := Char.ofNat 34

/-- The backslash character. -/
def backsl : Char := Char.ofNat 92

/-- Lowercase hexadecimal digit, as produced by CPython string escapes. -/
def hexDigitChar (n : Nat) : Char :=
  if n < 10 then Char.ofNat (48 + n) else Char.ofNat (87 + n)

/-- One character of CPython `repr` of a `str`, given the chosen quote
character: backslash and the quote are backslash-escaped, tab, newline and
carriage return become \t, \n, \r, other control characters (below 0x20, and
0x7f) become \xNN.  CPython additionally \x-escapes non-printable characters
at and above 0x80 according to the Unicode category tables; those are modelled
as printable here and emitted verbatim. -/
def escChar (q c : Char) : Str :=
  if c = backsl ∨ c = q then [backsl, c]
  else if c = Char.ofNat 9 then [backsl, 't']
  else if c = Char.ofNat 10 then [backsl, 'n']
  else if c = Char.ofNat 13 then [backsl, 'r']
  else if c.toNat < 32 ∨ c.toNat = 127 then
    [backsl, 'x', hexDigitChar (c.toNat / 16), hexDigitChar (c.toNat % 16)]
  else [c]

/-- Escape every character of a string body for `repr`. -/
def escAll (q : Char) : Str → Str
  | [] => []
  | c :: rest => escChar q c ++ escAll q rest

/-- CPython quote selection for `repr` of a `str`: a single quote, unless the
string contains a single quote and no double quote. -/
def pyReprQuote (s : Str) : Char :=
  if s.contains quoteS ∧ ¬ s.contains quoteD then quoteD else quoteS

/-- CPython `repr` of a `str` (see `escChar` for the modelled escape set). -/
def pyRepr (s : Str) : Str :=
  let q := pyReprQuote s
  q :: escAll q s ++ [q]

/-- Python `", ".join`. -/
def joinCommaSpace : List Str → Str
  | [] => []
  | [c] => c
  | c :: cs => c ++ ',' :: ' ' :: joinCommaSpace cs

/-- Python `str` of a list of strings, as interpolated by an f-string:
the reprs of the elements, comma-separated, in square brackets. -/
def pyListRepr (xs : List Str) : Str :=
  '[' :: joinCommaSpace (xs.map pyRepr) ++ [']']

/-- Decimal digits of a natural number, with explicit fuel so that the
definition is structurally recursive (the fuel never runs out when it starts
at the number itself, because dividing by ten strictly decreases). -/
def natReprFuel : Nat → Nat → Str
  | 0, n => [Char.ofNat (48 + n % 10)]
  | fuel + 1, n =>
    if n < 10 then [Char.ofNat (48 + n)]
    else natReprFuel fuel (n / 10) ++ [Char.ofNat (48 + n % 10)]

/-- Python `str` of a non-negative integer: decimal digits. -/
def natRepr (n : Nat) : Str := natReprFuel n n

/-- Python `str` of an integer: decimal digits with a leading minus sign when
negative. -/
def intRepr (i : Int) : Str :=
  if i < 0 then '-' :: natRepr i.natAbs else natRepr i.toNat

/-- The dictionary returned by `run_shell_command` on the non-raising paths
(the CommandResult of the spec). -/
structure CommandResult where
  stdout : Str
  stderr : Str
  exit_code : Int
  command : Str
  shell : Str
  cwd : Str
  deriving DecidableEq

/-- Python `str` of the result dictionary: keys in insertion order, string
values shown with `repr`, the integer in decimal. -/
def strOfResult (r : CommandResult) : Str :=
  chars "\x7b\x27stdout\x27: " ++ pyRepr r.stdout ++
  chars ", \x27stderr\x27: " ++ pyRepr r.stderr ++
  chars ", \x27exit_code\x27: " ++ intRepr r.exit_code ++
  chars ", \x27command\x27: " ++ pyRepr r.command ++
  chars ", \x27shell\x27: " ++ pyRepr r.shell ++
  chars ", \x27cwd\x27: " ++ pyRepr r.cwd ++ chars "\x7d"

/-- A UTF-8 continuation byte. -/
def contByte (b : Nat) : Bool := 128 ≤ b ∧ b ≤ 191

/-- Strict UTF-8 decoding of a byte sequence, as performed by
`bytes.decode()` with the default codec and error handler: rejects invalid
start bytes, truncated or invalid continuations, overlong forms, surrogates
and code points above 0x10FFFF. -/
def utf8DecodeList : List Nat → Option Str
  | [] => some []
  | b :: rest =>
    if b ≤ 127 then
      match utf8DecodeList rest with
      | some cs => some (Char.ofNat b :: cs)
      | none => none
    else if 194 ≤ b ∧ b ≤ 223 then
      match rest with
      | b1 :: r =>
        if contByte b1 then
          match utf8DecodeList r with
          | some cs => some (Char.ofNat ((b - 192) * 64 + (b1 - 128)) :: cs)
          | none => none
        else none
      | [] => none
    else if 224 ≤ b ∧ b ≤ 239 then
      match rest with
      | b1 :: b2 :: r =>
        if (if b = 224 then 160 ≤ b1 ∧ b1 ≤ 191
            else if b = 237 then 128 ≤ b1 ∧ b1 ≤ 159
            else contByte b1 = true) ∧ contByte b2 = true then
          match utf8DecodeList r with
          | some cs =>
            some (Char.ofNat ((b - 224) * 4096 + (b1 - 128) * 64 + (b2 - 128)) :: cs)
          | none => none
        else none
      | _ => none
    else if 240 ≤ b ∧ b ≤ 244 then
      match rest with
      | b1 :: b2 :: b3 :: r =>
        if (if b = 240 then 144 ≤ b1 ∧ b1 ≤ 191
            else if b = 244 then 128 ≤ b1 ∧ b1 ≤ 143
            else contByte b1 = true) ∧ contByte b2 = true ∧ contByte b3 = true then
          match utf8DecodeList r with
          | some cs =>
            some (Char.ofNat
              ((b - 240) * 262144 + (b1 - 128) * 4096 + (b2 - 128) * 64 + (b3 - 128)) :: cs)
          | none => none
        else none
      | _ => none
    else none

/-- The exceptions of the source that can cross a function boundary. -/
inductive PyError where
  | valueError (msg : Str)
  | timeoutError (msg : Str)
  | keyError (key : Str)
  | unicodeDecodeError (msg : Str)
  deriving DecidableEq

/-- Python `str(e)` for the modelled exceptions.  `str` of a KeyError is the
repr of the missing key.  The text of a UnicodeDecodeError names the byte and
position; no claim depends on it and the constructor carries it opaquely. -/
def strOfError : PyError → Str
  | .valueError m => m
  | .timeoutError m => m
  | .keyError k => pyRepr k
  | .unicodeDecodeError m => m

/-- `stdout.decode() if stdout else ""` (and the same for stderr): empty
captured bytes are replaced by the empty string without decoding; otherwise a
strict decode that raises UnicodeDecodeError on invalid bytes. -/
def decodeStream (bs : List Nat) : Except PyError Str :=
  if bs = [] then .ok []
  else
    match utf8DecodeList bs with
    | some s => .ok s
    | none => .error (.unicodeDecodeError (chars "\x27utf-8\x27 codec can\x27t decode"))

/-- What the operating system did with the one subprocess a call may launch.
The launch, kill and reap steps the source performs are recorded as events. -/
inductive Event where
  | spawn (argv : List Str) (cwd : Str)
  | kill
  | waited
  deriving DecidableEq

/-- The behavior of the launched command as decided by the environment: it
finishes within COMMAND_TIMEOUT with captured output bytes and an exit status,
or it is still running when the timeout fires (`gone` tells whether it
disappeared on its own between the timeout and the kill), or the launch itself
fails with an exception whose `str` is `msg`. -/
inductive ProcBehavior where
  | completes (outBytes errBytes : List Nat) (returncode : Int)
  | hangs (gone : Bool)
  | failsToLaunch (msg : Str)

/-- Outcome of `run_shell_command`: a returned result dictionary or a raised
exception. -/
inductive RunResult where
  | ok (r : CommandResult)
  | err (e : PyError)
  deriving DecidableEq

/-- The returned dictionary, when `run_shell_command` returned one. -/
def RunResult.ok? : RunResult → Option CommandResult
  | .ok r => some r
  | .err _ => none

/-- `run_shell_command(shell, command, cwd)` (server.py), POSIX branch.
Checks the directory against the allow-list, then the shell name against the
shell table, builds `[shell_path, "-c", command]`, launches the subprocess and
races `communicate()` against COMMAND_TIMEOUT.  On timeout the process is
killed and reaped (the kill tolerating ProcessLookupError) and TimeoutError is
raised; TimeoutError is re-raised past the outer handler, while any other
exception inside the try block yields the degraded result dictionary.  The
returned event list records the subprocess lifecycle steps in order. -/
def run_shell_command (settings : Settings) (osCwd : Str)
    (shell command cwd : Str) (beh : ProcBehavior) : RunResult × List Event :=
  if ¬ settings.is_path_allowed osCwd cwd then
    (.err (.valueError (chars "Directory \x27" ++ cwd ++
      chars "\x27 is not in the allowed directories list")), [])
  else
    match dictLookup settings.ALLOWED_SHELLS shell with
    | none =>
      (.err (.valueError (chars "Shell \x27" ++ shell ++
        chars "\x27 is not allowed. Available shells: " ++
        pyListRepr (settings.ALLOWED_SHELLS.map Prod.fst))), [])
    | some shell_path =>
      let shell_cmd := [shell_path, chars "-c", command]
      match beh with
      | .failsToLaunch msg =>
        (.ok ⟨[], msg, -1, command, shell, cwd⟩, [])
      | .hangs gone =>
        (.err (.timeoutError (chars "Command execution timed out after " ++
          natRepr settings.COMMAND_TIMEOUT ++ chars " seconds")),
         .spawn shell_cmd cwd :: if gone then [] else [.kill, .waited])
      | .completes outBytes errBytes returncode =>
        match decodeStream outBytes with
        | .error e =>
          (.ok ⟨[], strOfError e, -1, command, shell, cwd⟩, [.spawn shell_cmd cwd])
        | .ok outText =>
          match decodeStream errBytes with
          | .error e =>
            (.ok ⟨[], strOfError e, -1, command, shell, cwd⟩, [.spawn shell_cmd cwd])
          | .ok errText =>
            (.ok ⟨outText, errText, returncode, command, shell, cwd⟩,
             [.spawn shell_cmd cwd])

/-- Outcome of `call_tool`: a returned list of text content blocks (each block
is its text) or an exception that escapes the handler. -/
inductive CallOutcome where
  | blocks (texts : List Str)
  | raised (e : PyError)
  deriving DecidableEq

/-- `call_tool(name, arguments)` (server.py).  Unknown tool names are answered
with a single error block before the arguments are touched.  The three
required fields are then read by dictionary indexing, which raises KeyError
when a field is missing — those reads sit before the try block.  The runner's
result dictionary is rendered with `str`, and any exception the runner raises
is rendered as a single block prefixed with `"Error: "`. -/
def call_tool (settings : Settings) (osCwd : Str) (name : Str)
    (arguments : List (Str × Str)) (beh : ProcBehavior) :
    CallOutcome × List Event :=
  if name ≠ chars "execute_command" then
    (.blocks [chars "Error: Unknown tool " ++ name], [])
  else
    match dictLookup arguments (chars "command") with
    | none => (.raised (.keyError (chars "command")), [])
    | some command =>
      match dictLookup arguments (chars "shell") with
      | none => (.raised (.keyError (chars "shell")), [])
      | some shell =>
        match dictLookup arguments (chars "cwd") with
        | none => (.raised (.keyError (chars "cwd")), [])
        | some cwd =>
          match run_shell_command settings osCwd shell command cwd beh with
          | (.ok result, evs) => (.blocks [strOfResult result], evs)
          | (.err e, evs) => (.blocks [chars "Error: " ++ strOfError e], evs)

/-- Modelled from the spec: a path `q` is "equal to, or a path-segment
descendant of" a base directory when the segment list of the base is a prefix
of the segment list of `q` (prefix-on-canonical-path semantics, not string
containment). -/
def isPathSegmentDescendantSpec (base q : Str) : Bool :=
  (splitSep '/' base).isPrefixOf (splitSep '/' q)

/-- Modelled from the spec: the symbolic-link state of the filesystem, as a
table from link path to target path, and the resolution of a path against it
(a path that is a symbolic link resolves to its target; a path that is not a
link resolves to itself).  The source never consults the filesystem when
normalizing (os.path.abspath is purely lexical), so this state is external
input here. -/
def resolveLinks (links : List (Str × Str)) (p : Str) : Str :=
  match dictLookup links p with
  | some target => target
  | none => p

/-- Consume an expected literal from the front of the input. -/
def dropLit : Str → Str → Option Str
  | [], s => some s
  | _ :: _, [] => none
  | c :: cs, d :: ds => if c = d then dropLit cs ds else none

/-- Value of a lowercase hexadecimal digit. -/
def hexVal (c : Char) : Option Nat :=
  if 48 ≤ c.toNat ∧ c.toNat ≤ 57 then some (c.toNat - 48)
  else if 97 ≤ c.toNat ∧ c.toNat ≤ 102 then some (c.toNat - 87)
  else none

/-- Read an escaped string body up to its closing quote `q`, undoing the
escapes `escChar` produces; returns the decoded body and the rest of the
input after the closing quote. -/
def unescape (q : Char) : Str → Option (Str × Str)
  | [] => none
  | c :: rest =>
    if c = q then some ([], rest)
    else if c = backsl then
      match rest with
      | [] => none
      | e :: r =>
        if e = 't' then (unescape q r).map (fun p => (Char.ofNat 9 :: p.1, p.2))
        else if e = 'n' then (unescape q r).map (fun p => (Char.ofNat 10 :: p.1, p.2))
        else if e = 'r' then (unescape q r).map (fun p => (Char.ofNat 13 :: p.1, p.2))
        else if e = 'x' then
          match r with
          | h1 :: h2 :: r2 =>
            match hexVal h1, hexVal h2 with
            | some v1, some v2 =>
              (unescape q r2).map (fun p => (Char.ofNat (16 * v1 + v2) :: p.1, p.2))
            | _, _ => none
          | _ => none
        else if e = backsl ∨ e = q then
          (unescape q r).map (fun p => (e :: p.1, p.2))
        else none
    else (unescape q rest).map (fun p => (c :: p.1, p.2))

/-- Read one repr-quoted string: an opening quote, an escaped body, the
closing quote. -/
def parseStrField (s : Str) : Option (Str × Str) :=
  match s with
  | [] => none
  | q :: rest => if q = quoteS ∨ q = quoteD then unescape q rest else none

/-- Numeric value of a string of decimal digits (most significant first). -/
def digitsVal (s : Str) : Nat :=
  s.foldl (fun a c => 10 * a + (c.toNat - 48)) 0

/-- A decimal digit character. -/
def isDigitCh (c : Char) : Bool := 48 ≤ c.toNat ∧ c.toNat ≤ 57

/-- Read the decimal integer that extends to the next comma. -/
def parseIntField (s : Str) : Option (Int × Str) :=
  let ds := s.takeWhile (fun c => c ≠ ',')
  let rest := s.dropWhile (fun c => c ≠ ',')
  if ds.take 1 = ['-'] then
    let ds2 := ds.drop 1
    if ds2 ≠ [] ∧ ds2.all isDigitCh then some (-(digitsVal ds2 : Int), rest) else none
  else if ds ≠ [] ∧ ds.all isDigitCh then some ((digitsVal ds : Int), rest) else none

/-- Recover the six fields of a serialized CommandResult from the text block
`call_tool` returns on success. -/
def parseResult (s : Str) : Option CommandResult :=
  (dropLit (chars "\x7b\x27stdout\x27: ") s).bind fun s1 =>
  (parseStrField s1).bind fun (stdoutV, s2) =>
  (dropLit (chars ", \x27stderr\x27: ") s2).bind fun s3 =>
  (parseStrField s3).bind fun (stderrV, s4) =>
  (dropLit (chars ", \x27exit_code\x27: ") s4).bind fun s5 =>
  (parseIntField s5).bind fun (exitV, s6) =>
  (dropLit (chars ", \x27command\x27: ") s6).bind fun s7 =>
  (parseStrField s7).bind fun (commandV, s8) =>
  (dropLit (chars ", \x27shell\x27: ") s8).bind fun s9 =>
  (parseStrField s9).bind fun (shellV, s10) =>
  (dropLit (chars ", \x27cwd\x27: ") s10).bind fun s11 =>
  (parseStrField s11).bind fun (cwdV, s12) =>
  (dropLit (chars "\x7d") s12).bind fun s13 =>
  if s13 = [] then some ⟨stdoutV, stderrV, exitV, commandV, shellV, cwdV⟩ else none

/-- The settings the test-suite runs under (conftest-style fixture): one
allowed directory and one shell, with the default timeout. -/
def S0 : Settings :=
  Settings.make 30 (chars "/") [chars "/tmp"] [(chars "bash", chars "/bin/bash")]

example : chars "/ab" = ['/', 'a', 'b'] := rfl
example : pyStartswith (chars "/ab") (chars "/") = true := by decide
example : pyStartswith (chars "xab") (chars "/") = false := rfl
example : normpath (chars "/data/project") = chars "/data/project" := by decide
example : normpath (chars "/a/../b//c/./d") = chars "/b/c/d" := by decide
example : normpath (chars "//x") = chars "//x" := by decide
example : normpath (chars "a/../../b") = chars "../b" := by decide
example : normpath (chars "/..") = chars "/" := by decide
example : normpath (chars "///x") = chars "/x" := by decide
example : normpath (chars "//") = chars "//" := by decide
example : normpath (chars "/a/") = chars "/a" := by decide
example : normpath (chars "a//b/") = chars "a/b" := by decide
example : normpath (chars "/a/b/../../..") = chars "/" := by decide
example : normpath (chars "//a/../..") = chars "//" := by decide
example : normpath (chars ".") = chars "." := by decide
example : pjoin (chars "/home/u/") (chars "x/y") = chars "/home/u/x/y" := by decide
example : pjoin (chars "") (chars "x") = chars "x" := by decide
example : abspath (chars "/home/u") (chars "x/y") = chars "/home/u/x/y" := by decide
example : abspath (chars "/") (chars "/data/project") = chars "/data/project" := by decide
example :
    (Settings.make 30 (chars "/") [chars "/data/project"] []).is_path_allowed
      (chars "/") (chars "/data/project2") = true := by decide
example :
    (Settings.make 30 (chars "/") [chars "/data/project"] []).is_path_allowed
      (chars "/") (chars "/data/other") = false := by decide
example : pyRepr (chars "a\x27b") = chars "\x22a\x27b\x22" := by decide
example : pyRepr (chars "a\x22b") = chars "\x27a\x22b\x27" := by decide
example : pyRepr (chars "a\x27b\x22c") = chars "\x27a\\\x27b\x22c\x27" := by decide
example :
    pyRepr (chars "\x00\x1f\x7f\t\n\r\\") =
      chars "\x27\\x00\\x1f\\x7f\\t\\n\\r\\\\\x27" := by decide
example : pyRepr (chars "ñ") = chars "\x27ñ\x27" := by decide
example : pyListRepr [chars "bash", chars "sh"] = chars "[\x27bash\x27, \x27sh\x27]" := by decide
example : pyListRepr [] = chars "[]" := by decide
example : intRepr (-1) = chars "-1" := by decide
example : intRepr 0 = chars "0" := by decide
example : natRepr 30 = chars "30" := by decide
example : natRepr 107 = chars "107" := by decide
example : utf8DecodeList [195, 177, 195, 167, 195, 169] = some (chars "ñçé") := by decide
example : utf8DecodeList [255] = none := by decide
example : utf8DecodeList [237, 160, 128] = none := by decide
example : utf8DecodeList [192, 128] = none := by decide
example : utf8DecodeList [196] = none := by decide
example : utf8DecodeList [226, 130, 172] = some (chars "€") := by decide
example : utf8DecodeList [240, 159, 152, 128] = some (chars "😀") := by decide
example :
    strOfResult ⟨chars "ok", chars "", 0, chars "ls", chars "bash", chars "/tmp"⟩ =
      chars "\x7b\x27stdout\x27: \x27ok\x27, \x27stderr\x27: \x27\x27, \x27exit_code\x27: 0, \x27command\x27: \x27ls\x27, \x27shell\x27: \x27bash\x27, \x27cwd\x27: \x27/tmp\x27\x7d" := by
  decide
example :
    run_shell_command S0 (chars "/") (chars "bash") (chars "ls") (chars "/tmp")
        (.completes [111, 107, 10] [] 0) =
      (.ok ⟨chars "ok\n", chars "", 0, chars "ls", chars "bash", chars "/tmp"⟩,
       [.spawn [chars "/bin/bash", chars "-c", chars "ls"] (chars "/tmp")]) := by decide
example :
    run_shell_command S0 (chars "/") (chars "bash") (chars "ls")
        (chars "/invalid/directory") (.completes [] [] 0) =
      (.err (.valueError
        (chars "Directory \x27/invalid/directory\x27 is not in the allowed directories list")),
       []) := by decide
example :
    run_shell_command S0 (chars "/") (chars "zsh") (chars "ls") (chars "/tmp")
        (.completes [] [] 0) =
      (.err (.valueError
        (chars "Shell \x27zsh\x27 is not allowed. Available shells: [\x27bash\x27]")),
       []) := by decide
example :
    run_shell_command S0 (chars "/") (chars "bash") (chars "sleep 10") (chars "/tmp")
        (.hangs false) =
      (.err (.timeoutError (chars "Command execution timed out after 30 seconds")),
       [.spawn [chars "/bin/bash", chars "-c", chars "sleep 10"] (chars "/tmp"),
        .kill, .waited]) := by decide
example :
    (call_tool S0 (chars "/") (chars "execute_command")
        [(chars "command", chars "ls"), (chars "shell", chars "bash"),
         (chars "cwd", chars "/tmp")] (.completes [111, 107] [] 0)).1 =
      .blocks [chars "\x7b\x27stdout\x27: \x27ok\x27, \x27stderr\x27: \x27\x27, \x27exit_code\x27: 0, \x27command\x27: \x27ls\x27, \x27shell\x27: \x27bash\x27, \x27cwd\x27: \x27/tmp\x27\x7d"] := by
  decide
example :
    (call_tool S0 (chars "/") (chars "other_tool") [] (.completes [] [] 0)) =
      (.blocks [chars "Error: Unknown tool other_tool"], []) := by decide
example :
    (call_tool S0 (chars "/") (chars "execute_command")
        [(chars "shell", chars "bash"), (chars "cwd", chars "/tmp")]
        (.completes [] [] 0)) =
      (.raised (.keyError (chars "command")), []) := by decide
example :
    parseResult (strOfResult
      ⟨chars "o\x27u\nt", chars "e\\r", -1, chars "c\x22md\x27", chars "bash", chars "/tmp"⟩) =
      some ⟨chars "o\x27u\nt", chars "e\\r", -1, chars "c\x22md\x27", chars "bash", chars "/tmp"⟩ := by
  decide
example :
    parseResult (strOfResult ⟨chars "", chars "", 0, chars "", chars "", chars ""⟩) =
      some ⟨chars "", chars "", 0, chars "", chars "", chars ""⟩ := by decide
example :
    parseResult (strOfResult
      ⟨chars "\x00ñ", chars ", \x27stderr\x27: ", 12, chars "a", chars "b", chars "c"⟩) =
      some ⟨chars "\x00ñ", chars ", \x27stderr\x27: ", 12, chars "a", chars "b", chars "c"⟩ := by
  decide

/-! ### Helper lemmas: the serialization of a CommandResult is invertible -/

theorem charToNat_ofNat_small (m : Nat) (h : m < 55296) : (Char.ofNat m).toNat = m := by
  unfold Char.ofNat
  rw [dif_pos (Or.inl h)]
  show (⟨⟨BitVec.ofNatLt m _⟩, _⟩ : Char).toNat = m
  simp [Char.toNat, UInt32.toNat, BitVec.toNat_ofNatLt]

theorem dropLit_append (l rest : Str) : dropLit l (l ++ rest) = some rest := by
  induction l with
  | nil => rfl
  | cons c cs ih => simp [dropLit, ih]

theorem hexVal_hexDigitChar (n : Nat) (h : n < 16) : hexVal (hexDigitChar n) = some n := by
  interval_cases n <;> decide

theorem unescape_closing (q : Char) (rest : Str) :
    unescape q (q :: rest) = some ([], rest) := by
  rw [unescape.eq_def]
  simp

theorem unescape_plain (q c : Char) (s : Str) (h1 : ¬ c = q) (h2 : ¬ c = backsl) :
    unescape q (c :: s) = (unescape q s).map (fun p => (c :: p.1, p.2)) := by
  rw [unescape.eq_def]
  simp [h1, h2]

theorem unescape_bs_t (q : Char) (r : Str) (hbq : ¬ backsl = q) :
    unescape q (backsl :: 't' :: r) =
      (unescape q r).map (fun p => (Char.ofNat 9 :: p.1, p.2)) := by
  rw [unescape.eq_def]
  simp [hbq]

theorem unescape_bs_n (q : Char) (r : Str) (hbq : ¬ backsl = q) :
    unescape q (backsl :: 'n' :: r) =
      (unescape q r).map (fun p => (Char.ofNat 10 :: p.1, p.2)) := by
  rw [unescape.eq_def]
  simp [hbq]

theorem unescape_bs_r (q : Char) (r : Str) (hbq : ¬ backsl = q) :
    unescape q (backsl :: 'r' :: r) =
      (unescape q r).map (fun p => (Char.ofNat 13 :: p.1, p.2)) := by
  rw [unescape.eq_def]
  simp [hbq]

theorem unescape_bs_x (q h1 h2 : Char) (r : Str) (v1 v2 : Nat) (hbq : ¬ backsl = q)
    (hv1 : hexVal h1 = some v1) (hv2 : hexVal h2 = some v2) :
    unescape q (backsl :: 'x' :: h1 :: h2 :: r) =
      (unescape q r).map (fun p => (Char.ofNat (16 * v1 + v2) :: p.1, p.2)) := by
  rw [unescape.eq_def]
  simp [hbq, hv1, hv2]

theorem unescape_bs_lit (q e : Char) (r : Str) (hbq : ¬ backsl = q)
    (he : e = backsl ∨ e = q)
    (ht : ¬ e = 't') (hn : ¬ e = 'n') (hr : ¬ e = 'r') (hx : ¬ e = 'x') :
    unescape q (backsl :: e :: r) =
      (unescape q r).map (fun p => (e :: p.1, p.2)) := by
  rw [unescape.eq_def]
  simp [hbq, ht, hn, hr, hx, he]

theorem pyReprQuote_cases (s : Str) : pyReprQuote s = quoteS ∨ pyReprQuote s = quoteD := by
  unfold pyReprQuote
  split
  · exact Or.inr rfl
  · exact Or.inl rfl

theorem natReprFuel_spec : ∀ (fuel n : Nat), n ≤ fuel →
    (natReprFuel fuel n).all isDigitCh = true ∧
    digitsVal (natReprFuel fuel n) = n ∧ natReprFuel fuel n ≠ [] := by
  intro fuel
  induction fuel with
  | zero =>
    intro n hn
    interval_cases n
    exact ⟨by decide, by decide, by decide⟩
  | succ fuel ih =>
    intro n hn
    by_cases h : n < 10
    · have htn : (Char.ofNat (48 + n)).toNat = 48 + n := charToNat_ofNat_small _ (by omega)
      refine ⟨?_, ?_, ?_⟩
      · simp [natReprFuel, if_pos h, isDigitCh, htn]
        omega
      · simp [natReprFuel, if_pos h, digitsVal, htn]
      · simp [natReprFuel, if_pos h]
    · have hd : n / 10 ≤ fuel := by omega
      obtain ⟨ihd, ihv, ihn⟩ := ih (n / 10) hd
      have htn : (Char.ofNat (48 + n % 10)).toNat = 48 + n % 10 :=
        charToNat_ofNat_small _ (by omega)
      refine ⟨?_, ?_, ?_⟩
      · simp [natReprFuel, if_neg h, List.all_append, ihd, isDigitCh, htn]
        omega
      · simp only [natReprFuel, if_neg h, digitsVal, List.foldl_append]
        simp only [digitsVal] at ihv
        simp [ihv, htn]
        omega
      · simp [natReprFuel, if_neg h]

theorem natRepr_spec (n : Nat) :
    (natRepr n).all isDigitCh = true ∧ digitsVal (natRepr n) = n ∧ natRepr n ≠ [] :=
  natReprFuel_spec n n le_rfl

theorem takeWhile_all_append (p : Char → Bool) : ∀ (xs : Str) (y : Char) (ys : Str),
    (∀ c ∈ xs, p c = true) → p y = false →
    (xs ++ y :: ys).takeWhile p = xs ∧ (xs ++ y :: ys).dropWhile p = y :: ys := by
  intro xs
  induction xs with
  | nil =>
    intro y ys _ hy
    simp [List.takeWhile_cons, List.dropWhile_cons, hy]
  | cons x xs ih =>
    intro y ys hall hy
    have hx : p x = true := hall x (by simp)
    obtain ⟨h1, h2⟩ := ih y ys (fun c hc => hall c (by simp [hc])) hy
    simp [List.takeWhile_cons, List.dropWhile_cons, hx, h1, h2]

theorem digit_ne_comma (c : Char) (h : isDigitCh c = true) : (decide (c ≠ ',')) = true := by
  simp only [isDigitCh, decide_eq_true_eq] at h ⊢
  intro hc
  subst hc
  simp at h

theorem parseIntField_intRepr (i : Int) (ys : Str) :
    parseIntField (intRepr i ++ ',' :: ys) = some (i, ',' :: ys) := by
  have hmf : (decide ((',' : Char) ≠ ',')) = false := by decide
  by_cases hi : i < 0
  · obtain ⟨hall, hval, hne⟩ := natRepr_spec i.natAbs
    have hap : ∀ c ∈ '-' :: natRepr i.natAbs, (decide (c ≠ ',')) = true := by
      intro c hc
      rcases List.mem_cons.mp hc with rfl | hc
      · decide
      · exact digit_ne_comma c (by
          have := List.all_eq_true.mp hall c hc
          simpa using this)
    obtain ⟨ht, hd⟩ :=
      takeWhile_all_append (fun c => decide (c ≠ ','))
        ('-' :: natRepr i.natAbs) ',' ys hap hmf
    simp only [intRepr, if_pos hi]
    rw [parseIntField]
    simp only [List.cons_append] at ht hd ⊢
    rw [ht, hd]
    simp only [List.take_succ_cons, List.take_zero, List.drop_succ_cons, List.drop_zero,
      eq_self_iff_true, if_true]
    rw [if_pos (And.intro hne hall), hval]
    have hni : -(i.natAbs : Int) = i := by omega
    rw [hni]
  · obtain ⟨hall, hval, hne⟩ := natRepr_spec i.toNat
    have hap : ∀ c ∈ natRepr i.toNat, (decide (c ≠ ',')) = true := by
      intro c hc
      exact digit_ne_comma c (by
        have := List.all_eq_true.mp hall c hc
        simpa using this)
    obtain ⟨ht, hd⟩ :=
      takeWhile_all_append (fun c => decide (c ≠ ',')) (natRepr i.toNat) ',' ys hap hmf
    simp only [intRepr, if_neg hi] at ht hd ⊢
    rw [parseIntField]
    rw [ht, hd]
    have hnm : ¬ (natRepr i.toNat).take 1 = ['-'] := by
      obtain ⟨d, tail, hdt⟩ := List.exists_cons_of_ne_nil hne
      rw [hdt]
      simp only [List.take_succ_cons, List.take_zero]
      intro hcontra
      have hdm : d = '-' := by simpa using hcontra
      have hdig : isDigitCh d = true := by
        have := List.all_eq_true.mp hall d (by simp [hdt])
        simpa using this
      rw [hdm] at hdig
      simp [isDigitCh] at hdig
    rw [if_neg hnm, if_pos (And.intro hne hall), hval]
    have hni : (i.toNat : Int) = i := Int.toNat_of_nonneg (by omega)
    rw [hni]

theorem unescape_escAll (q : Char) (hq : q = quoteS ∨ q = quoteD) :
    ∀ (s rest : Str), unescape q (escAll q s ++ q :: rest) = some (s, rest) := by
  intro s
  have hbq : ¬ backsl = q := by rcases hq with rfl | rfl <;> decide
  induction s with
  | nil =>
    intro rest
    simpa [escAll] using unescape_closing q rest
  | cons c s ih =>
    intro rest
    by_cases h1 : c = backsl ∨ c = q
    · have hcq : ¬ c = 't' ∧ ¬ c = 'n' ∧ ¬ c = 'r' ∧ ¬ c = 'x' := by
        rcases h1 with rfl | rfl
        · exact ⟨by decide, by decide, by decide, by decide⟩
        · rcases hq with rfl | rfl <;> exact ⟨by decide, by decide, by decide, by decide⟩
      simp only [escAll, escChar, if_pos h1, List.cons_append, List.append_assoc,
        List.nil_append]
      rw [unescape_bs_lit q c _ hbq h1 hcq.1 hcq.2.1 hcq.2.2.1 hcq.2.2.2, ih]
      rfl
    · push_neg at h1
      by_cases h2 : c = Char.ofNat 9
      · subst h2
        simp only [escAll, escChar, if_neg (not_or.mpr h1), if_pos rfl, if_true,
          eq_self_iff_true, List.cons_append, List.append_assoc, List.nil_append]
        rw [unescape_bs_t q _ hbq, ih]
        rfl
      · by_cases h3 : c = Char.ofNat 10
        · subst h3
          simp only [escAll, escChar, if_neg (not_or.mpr h1), if_neg h2, if_pos rfl,
            if_true, eq_self_iff_true, List.cons_append, List.append_assoc, List.nil_append]
          rw [unescape_bs_n q _ hbq, ih]
          rfl
        · by_cases h4 : c = Char.ofNat 13
          · subst h4
            simp only [escAll, escChar, if_neg (not_or.mpr h1), if_neg h2, if_neg h3,
              if_pos rfl, if_true, eq_self_iff_true, List.cons_append, List.append_assoc,
              List.nil_append]
            rw [unescape_bs_r q _ hbq, ih]
            rfl
          · by_cases h5 : c.toNat < 32 ∨ c.toNat = 127
            · simp only [escAll, escChar, if_neg (not_or.mpr h1), if_neg h2, if_neg h3,
                if_neg h4, if_pos h5, List.cons_append, List.append_assoc, List.nil_append]
              rw [unescape_bs_x q _ _ _ (c.toNat / 16) (c.toNat % 16) hbq
                (hexVal_hexDigitChar _ (by omega)) (hexVal_hexDigitChar _ (by omega)), ih]
              have hsum : 16 * (c.toNat / 16) + c.toNat % 16 = c.toNat := by omega
              simp [hsum, Char.ofNat_toNat]
            · simp only [escAll, escChar, if_neg (not_or.mpr h1), if_neg h2, if_neg h3,
                if_neg h4, if_neg h5, List.cons_append, List.append_assoc,
                List.singleton_append, List.nil_append]
              rw [unescape_plain q c _ h1.2 h1.1, ih]
              rfl

theorem parseStrField_pyRepr (s rest : Str) :
    parseStrField (pyRepr s ++ rest) = some (s, rest) := by
  have hq := pyReprQuote_cases s
  simp only [pyRepr, List.cons_append, List.append_assoc, List.singleton_append]
  rw [parseStrField.eq_def]
  simp only [if_pos hq]
  exact unescape_escAll _ hq s rest

theorem commandLit_cons :
    ∀ (x : Str), chars ", \x27command\x27: " ++ x = ',' :: (chars " \x27command\x27: " ++ x) :=
  fun _ => rfl

theorem parseIntField_before_commandLit (i : Int) (x : Str) :
    parseIntField (intRepr i ++ (chars ", \x27command\x27: " ++ x)) =
      some (i, chars ", \x27command\x27: " ++ x) := by
  rw [commandLit_cons x]
  exact parseIntField_intRepr i (chars " \x27command\x27: " ++ x)

theorem parseResult_strOfResult (r : CommandResult) : parseResult (strOfResult r) = some r := by
  rcases r with ⟨o, e, i, c, sh, cw⟩
  show parseResult
      (chars "\x7b\x27stdout\x27: " ++ pyRepr o ++
        chars ", \x27stderr\x27: " ++ pyRepr e ++
        chars ", \x27exit_code\x27: " ++ intRepr i ++
        chars ", \x27command\x27: " ++ pyRepr c ++
        chars ", \x27shell\x27: " ++ pyRepr sh ++
        chars ", \x27cwd\x27: " ++ pyRepr cw ++ chars "\x7d") = _
  rw [parseResult]
  simp only [List.append_assoc]
  rw [dropLit_append, Option.some_bind]
  rw [parseStrField_pyRepr, Option.some_bind]
  rw [dropLit_append, Option.some_bind]
  rw [parseStrField_pyRepr, Option.some_bind]
  rw [dropLit_append, Option.some_bind]
  rw [parseIntField_before_commandLit, Option.some_bind]
  rw [dropLit_append, Option.some_bind]
  rw [parseStrField_pyRepr, Option.some_bind]
  rw [dropLit_append, Option.some_bind]
  rw [parseStrField_pyRepr, Option.some_bind]
  rw [dropLit_append, Option.some_bind]
  rw [parseStrField_pyRepr, Option.some_bind]
  rfl

/-! ### Helper lemmas: shape of normalized absolute paths -/

theorem normComps_good : ∀ (rem acc : List Str),
    (∀ x ∈ acc, x ≠ [] ∧ x ≠ chars "." ∧ x ≠ chars "..") →
    ∀ x ∈ normComps true acc rem, x ≠ [] ∧ x ≠ chars "." ∧ x ≠ chars ".." := by
  intro rem
  induction rem with
  | nil =>
    intro acc hacc x hx
    rw [normComps] at hx
    exact hacc x (List.mem_reverse.mp hx)
  | cons comp rest ih =>
    intro acc hacc x hx
    rw [normComps] at hx
    by_cases h1 : comp = [] ∨ comp = chars "."
    · rw [if_pos h1] at hx
      exact ih acc hacc x hx
    · rw [if_neg h1] at hx
      push_neg at h1
      by_cases h2 : comp ≠ chars ".." ∨ (true = false ∧ acc = []) ∨
          (acc ≠ [] ∧ acc.head? = some (chars ".."))
      · rw [if_pos h2] at hx
        have hcomp : comp ≠ chars ".." := by
          rcases h2 with h2 | h2 | h2
          · exact h2
          · exact absurd h2.1 (by simp)
          · obtain ⟨hne, hh⟩ := h2
            obtain ⟨y, ys, rfl⟩ := List.exists_cons_of_ne_nil hne
            simp only [List.head?_cons, Option.some_inj] at hh
            have := (hacc y (by simp)).2.2
            exact absurd hh this
        refine ih (comp :: acc) ?_ x hx
        intro z hz
        rcases List.mem_cons.mp hz with rfl | hz
        · exact ⟨h1.1, h1.2, hcomp⟩
        · exact hacc z hz
      · rw [if_neg h2] at hx
        by_cases h3 : acc ≠ []
        · rw [if_pos h3] at hx
          refine ih acc.tail ?_ x hx
          intro z hz
          exact hacc z (List.mem_of_mem_tail hz)
        · rw [if_neg h3] at hx
          exact ih acc hacc x hx

theorem initialSlashes_pos (p : Str) (hp : pyStartswith p (chars "/") = true) :
    1 ≤ initialSlashes p := by
  rw [initialSlashes, if_pos hp]
  split
  · omega
  · omega

theorem normpath_abs_form (p : Str) (hp : pyStartswith p (chars "/") = true) :
    ∃ k comps, 1 ≤ k ∧
      (∀ x ∈ comps, x ≠ [] ∧ x ≠ chars "." ∧ x ≠ chars "..") ∧
      normpath p = List.replicate k '/' ++ joinComps '/' comps := by
  have hpne : p ≠ [] := by
    intro h
    rw [h] at hp
    simp [pyStartswith, List.isPrefixOf, chars] at hp
  have hk := initialSlashes_pos p hp
  have hkne : (decide (initialSlashes p ≠ 0)) = true := by
    simp only [decide_eq_true_eq]
    omega
  refine ⟨initialSlashes p, normComps true [] (splitSep '/' p), hk, ?_, ?_⟩
  · exact normComps_good (splitSep '/' p) [] (by intro x hx; cases hx)
  · rw [normpath, if_neg hpne]
    simp only [hkne]
    rw [if_neg ?hne]
    case hne =>
      obtain ⟨k', hk'⟩ : ∃ k', initialSlashes p = k' + 1 := ⟨initialSlashes p - 1, by omega⟩
      rw [hk']
      simp [List.replicate_succ]

theorem startswith_replicate_slash (k : Nat) (hk : 1 ≤ k) (x : Str) :
    pyStartswith (List.replicate k '/' ++ x) (chars "/") = true := by
  obtain ⟨k', rfl⟩ : ∃ k', k = k' + 1 := ⟨k - 1, by omega⟩
  simp [List.replicate_succ, pyStartswith, List.isPrefixOf, chars]

theorem pjoin_startswith (cwd d : Str) (h : pyStartswith cwd (chars "/") = true) :
    pyStartswith (pjoin cwd d) (chars "/") = true := by
  rw [pjoin]
  by_cases hb : isabs d
  · rw [if_pos hb]
    exact hb
  · rw [if_neg hb]
    obtain ⟨t, rfl⟩ : ∃ t, cwd = '/' :: t := by
      cases cwd with
      | nil => simp [pyStartswith, List.isPrefixOf, chars] at h
      | cons c t =>
        refine ⟨t, ?_⟩
        simp_all [pyStartswith, List.isPrefixOf, chars]
        exact h.symm
    split
    · simp [pyStartswith, List.isPrefixOf, chars]
    · simp [pyStartswith, List.isPrefixOf, chars]

theorem abspath_abs_form (osCwd p : Str) (h : pyStartswith osCwd (chars "/") = true) :
    ∃ k comps, 1 ≤ k ∧
      (∀ x ∈ comps, x ≠ [] ∧ x ≠ chars "." ∧ x ≠ chars "..") ∧
      abspath osCwd p = List.replicate k '/' ++ joinComps '/' comps := by
  rw [abspath]
  by_cases hb : isabs p
  · rw [if_pos hb]
    exact normpath_abs_form p hb
  · rw [if_neg hb]
    exact normpath_abs_form _ (pjoin_startswith osCwd p h)

/-! ### Helper lemma: dictionary membership -/

theorem dictLookup_isSome_iff_mem_keys (d : List (Str × Str)) (k : Str) :
    (dictLookup d k).isSome = true ↔ k ∈ d.map Prod.fst := by
  induction d with
  | nil => simp [dictLookup]
  | cons kv rest ih =>
    obtain ⟨k0, v0⟩ := kv
    by_cases h : k0 = k
    · subst h
      simp [dictLookup]
    · simp only [dictLookup, if_neg h, List.map_cons, List.mem_cons]
      rw [ih]
      constructor
      · exact fun hm => Or.inr hm
      · rintro (rfl | hm)
        · exact absurd rfl h
        · exact hm

/-! ### The claims -/

/-- C1: the claim states that `is_path_allowed` accepts exactly the
path-segment descendants of the allowed directories, and in particular
rejects a sibling directory whose name shares a string prefix with an allowed
entry.  The code uses raw `str.startswith` on the absolute path, so with
allowed directory `/data/project` the sibling `/data/project2` is accepted,
while the spec's segment-prefix relation rejects it. -/
theorem claim_c1_sibling_prefix_accepted :
    (Settings.make 30 (chars "/") [chars "/data/project"] []).is_path_allowed
        (chars "/") (chars "/data/project2") = true ∧
    isPathSegmentDescendantSpec (chars "/data/project") (chars "/data/project2") = false := by
  decide

/-- C2 counterexample: an `execute_command` call whose arguments lack the
`command` field does not produce a protocol-level error text block — the
dictionary access raises a KeyError that escapes `call_tool`. -/
theorem claim_c2_counterexample :
    call_tool S0 (chars "/") (chars "execute_command")
        [(chars "shell", chars "bash"), (chars "cwd", chars "/tmp")]
        (.completes [] [] 0) =
      (.raised (.keyError (chars "command")), []) := by
  decide

/-- C2 (amended): for every `execute_command` request missing one of the three
required fields, `call_tool` raises a KeyError (it does not return a text
block); no policy check is consulted and no process event occurs — the outcome
is the same for every process behavior. -/
theorem claim_c2_missing_field_raises_keyerror
    (S : Settings) (osCwd : Str) (args : List (Str × Str)) (beh : ProcBehavior)
    (h : dictLookup args (chars "command") = none ∨
      dictLookup args (chars "shell") = none ∨
      dictLookup args (chars "cwd") = none) :
    ∃ k, call_tool S osCwd (chars "execute_command") args beh =
      (.raised (.keyError k), []) := by
  cases hc : dictLookup args (chars "command") with
  | none =>
    exact ⟨chars "command", by simp [call_tool, hc]⟩
  | some c =>
    cases hs : dictLookup args (chars "shell") with
    | none =>
      exact ⟨chars "shell", by simp [call_tool, hc, hs]⟩
    | some s' =>
      cases hw : dictLookup args (chars "cwd") with
      | none =>
        exact ⟨chars "cwd", by simp [call_tool, hc, hs, hw]⟩
      | some w =>
        rcases h with h | h | h <;> simp_all

theorem claim_c2_missing_field_raises_keyerror_witness :
    (dictLookup [(chars "shell", chars "bash"), (chars "cwd", chars "/tmp")]
        (chars "command") = none ∨
      dictLookup [(chars "shell", chars "bash"), (chars "cwd", chars "/tmp")]
        (chars "shell") = none ∨
      dictLookup [(chars "shell", chars "bash"), (chars "cwd", chars "/tmp")]
        (chars "cwd") = none) ∧
    ∃ k, call_tool S0 (chars "/") (chars "execute_command")
        [(chars "shell", chars "bash"), (chars "cwd", chars "/tmp")]
        (.completes [] [] 0) = (.raised (.keyError k), []) :=
  ⟨Or.inl (by decide),
   claim_c2_missing_field_raises_keyerror S0 (chars "/")
     [(chars "shell", chars "bash"), (chars "cwd", chars "/tmp")]
     (.completes [] [] 0) (Or.inl (by decide))⟩

/-- C3: when the launched process is still running at COMMAND_TIMEOUT,
`run_shell_command` raises the TimeoutError (never returning a result
dictionary), after killing the process and awaiting its termination; if the
process disappeared before the kill, the ProcessLookupError is swallowed and
the TimeoutError is still raised. -/
theorem claim_c3_timeout_kills_reaps_raises
    (S : Settings) (osCwd shell command cwd p : Str) (gone : Bool)
    (hcwd : S.is_path_allowed osCwd cwd = true)
    (hsh : dictLookup S.ALLOWED_SHELLS shell = some p) :
    run_shell_command S osCwd shell command cwd (.hangs gone) =
      (.err (.timeoutError (chars "Command execution timed out after " ++
        natRepr S.COMMAND_TIMEOUT ++ chars " seconds")),
       .spawn [p, chars "-c", command] cwd :: if gone then [] else [.kill, .waited]) := by
  simp [run_shell_command, hcwd, hsh]

theorem claim_c3_timeout_kills_reaps_raises_witness :
    (S0.is_path_allowed (chars "/") (chars "/tmp") = true ∧
      dictLookup S0.ALLOWED_SHELLS (chars "bash") = some (chars "/bin/bash")) ∧
    run_shell_command S0 (chars "/") (chars "bash") (chars "sleep 10") (chars "/tmp")
        (.hangs false) =
      (.err (.timeoutError (chars "Command execution timed out after 30 seconds")),
       [.spawn [chars "/bin/bash", chars "-c", chars "sleep 10"] (chars "/tmp"),
        .kill, .waited]) :=
  ⟨⟨by decide, by decide⟩,
   claim_c3_timeout_kills_reaps_raises S0 (chars "/") (chars "bash") (chars "sleep 10")
     (chars "/tmp") (chars "/bin/bash") false (by decide) (by decide)⟩

/-- C4: when both policy checks pass and the launch (or any non-timeout step
inside the try block) fails with an exception, `run_shell_command` does not
raise: it returns a result dictionary with empty stdout, the failure text in
stderr, exit code -1, and the request's command, shell and cwd echoed back. -/
theorem claim_c4_launch_failure_soft_result
    (S : Settings) (osCwd shell command cwd p msg : Str)
    (hcwd : S.is_path_allowed osCwd cwd = true)
    (hsh : dictLookup S.ALLOWED_SHELLS shell = some p) :
    run_shell_command S osCwd shell command cwd (.failsToLaunch msg) =
      (.ok ⟨[], msg, -1, command, shell, cwd⟩, []) := by
  simp [run_shell_command, hcwd, hsh]

theorem claim_c4_launch_failure_soft_result_witness :
    (S0.is_path_allowed (chars "/") (chars "/tmp") = true ∧
      dictLookup S0.ALLOWED_SHELLS (chars "bash") = some (chars "/bin/bash")) ∧
    run_shell_command S0 (chars "/") (chars "bash") (chars "ls") (chars "/tmp")
        (.failsToLaunch (chars "No such file or directory")) =
      (.ok ⟨[], chars "No such file or directory", -1, chars "ls", chars "bash",
        chars "/tmp"⟩, []) :=
  ⟨⟨by decide, by decide⟩,
   claim_c4_launch_failure_soft_result S0 (chars "/") (chars "bash") (chars "ls")
     (chars "/tmp") (chars "/bin/bash") (chars "No such file or directory")
     (by decide) (by decide)⟩

/-- C5: a request whose working directory is not allowed, or whose shell name
is not configured, fails with the policy ValueError and produces no process
event at all (in particular no spawn), whatever the process behavior would
have been — both policy checks sit strictly before the launch step. -/
theorem claim_c5_policy_violation_never_spawns
    (S : Settings) (osCwd shell command cwd : Str) (beh : ProcBehavior)
    (h : S.is_path_allowed osCwd cwd = false ∨
      dictLookup S.ALLOWED_SHELLS shell = none) :
    ∃ m, run_shell_command S osCwd shell command cwd beh = (.err (.valueError m), []) := by
  rcases h with h | h
  · exact ⟨chars "Directory \x27" ++ cwd ++ chars "\x27 is not in the allowed directories list",
      by simp [run_shell_command, h]⟩
  · by_cases hcwd : S.is_path_allowed osCwd cwd = true
    · exact ⟨chars "Shell \x27" ++ shell ++ chars "\x27 is not allowed. Available shells: " ++
        pyListRepr (S.ALLOWED_SHELLS.map Prod.fst),
        by simp [run_shell_command, hcwd, h]⟩
    · exact ⟨chars "Directory \x27" ++ cwd ++ chars "\x27 is not in the allowed directories list",
        by simp [run_shell_command, hcwd]⟩

theorem claim_c5_policy_violation_never_spawns_witness :
    (S0.is_path_allowed (chars "/") (chars "/invalid/directory") = false ∨
      dictLookup S0.ALLOWED_SHELLS (chars "bash") = none) ∧
    ∃ m, run_shell_command S0 (chars "/") (chars "bash") (chars "ls")
        (chars "/invalid/directory") (.hangs false) = (.err (.valueError m), []) :=
  ⟨Or.inl (by decide),
   claim_c5_policy_violation_never_spawns S0 (chars "/") (chars "bash") (chars "ls")
     (chars "/invalid/directory") (.hangs false) (Or.inl (by decide))⟩

/-- C6: shell resolution succeeds exactly when the requested name is a key of
ALLOWED_SHELLS, and for a name that is not a key (with an allowed directory,
so that the directory check does not mask the shell check) the call fails with
the ValueError whose message carries the list of configured shell names. -/
theorem claim_c6_shell_resolution_iff_key
    (S : Settings) (osCwd shell command cwd : Str) (beh : ProcBehavior)
    (hcwd : S.is_path_allowed osCwd cwd = true) :
    ((dictLookup S.ALLOWED_SHELLS shell).isSome = true ↔
      shell ∈ S.ALLOWED_SHELLS.map Prod.fst) ∧
    (dictLookup S.ALLOWED_SHELLS shell = none →
      run_shell_command S osCwd shell command cwd beh =
        (.err (.valueError (chars "Shell \x27" ++ shell ++
          chars "\x27 is not allowed. Available shells: " ++
          pyListRepr (S.ALLOWED_SHELLS.map Prod.fst))), [])) := by
  refine ⟨dictLookup_isSome_iff_mem_keys _ _, fun hnone => ?_⟩
  simp [run_shell_command, hcwd, hnone]

theorem claim_c6_shell_resolution_iff_key_witness :
    S0.is_path_allowed (chars "/") (chars "/tmp") = true ∧
    (((dictLookup S0.ALLOWED_SHELLS (chars "zsh")).isSome = true ↔
      chars "zsh" ∈ S0.ALLOWED_SHELLS.map Prod.fst) ∧
    (dictLookup S0.ALLOWED_SHELLS (chars "zsh") = none →
      run_shell_command S0 (chars "/") (chars "zsh") (chars "ls") (chars "/tmp")
          (.hangs false) =
        (.err (.valueError (chars "Shell \x27zsh\x27 is not allowed. Available shells: [\x27bash\x27]")),
         []))) :=
  ⟨by decide,
   claim_c6_shell_resolution_iff_key S0 (chars "/") (chars "zsh") (chars "ls")
     (chars "/tmp") (.hangs false) (by decide)⟩

/-- C7: an `execute_command` call with all three fields present yields exactly
one text block; when the runner raises, the block is the error text prefixed
with "Error: "; when the runner returns a result dictionary, the block is its
`str` serialization, from which all fields (stdout, stderr, exit code,
command, shell, and also cwd) are recovered by `parseResult`. -/
theorem claim_c7_single_block_error_or_serialized
    (S : Settings) (osCwd : Str) (args : List (Str × Str)) (beh : ProcBehavior)
    (command shell cwd : Str)
    (hc : dictLookup args (chars "command") = some command)
    (hs : dictLookup args (chars "shell") = some shell)
    (hw : dictLookup args (chars "cwd") = some cwd) :
    ∃ t, (call_tool S osCwd (chars "execute_command") args beh).1 = .blocks [t] ∧
      (∀ er evs, run_shell_command S osCwd shell command cwd beh = (.err er, evs) →
        t = chars "Error: " ++ strOfError er) ∧
      (∀ r evs, run_shell_command S osCwd shell command cwd beh = (.ok r, evs) →
        t = strOfResult r ∧ parseResult t = some r) := by
  rcases hrun : run_shell_command S osCwd shell command cwd beh with ⟨res, evs⟩
  cases res with
  | ok r =>
    refine ⟨strOfResult r, ?_, ?_, ?_⟩
    · simp [call_tool, hc, hs, hw, hrun]
    · intro er evs' h
      simp at h
    · intro r' evs' h
      have h1 : RunResult.ok r = RunResult.ok r' := congrArg Prod.fst h
      injection h1 with h2
      subst h2
      exact ⟨rfl, parseResult_strOfResult r⟩
  | err er =>
    refine ⟨chars "Error: " ++ strOfError er, ?_, ?_, ?_⟩
    · simp [call_tool, hc, hs, hw, hrun]
    · intro er' evs' h
      have h1 : RunResult.err er = RunResult.err er' := congrArg Prod.fst h
      injection h1 with h2
      subst h2
      rfl
    · intro r' evs' h
      simp at h

theorem claim_c7_single_block_error_or_serialized_witness :
    (dictLookup [(chars "command", chars "ls"), (chars "shell", chars "bash"),
        (chars "cwd", chars "/tmp")] (chars "command") = some (chars "ls") ∧
      dictLookup [(chars "command", chars "ls"), (chars "shell", chars "bash"),
        (chars "cwd", chars "/tmp")] (chars "shell") = some (chars "bash") ∧
      dictLookup [(chars "command", chars "ls"), (chars "shell", chars "bash"),
        (chars "cwd", chars "/tmp")] (chars "cwd") = some (chars "/tmp")) ∧
    ∃ t, (call_tool S0 (chars "/") (chars "execute_command")
        [(chars "command", chars "ls"), (chars "shell", chars "bash"),
         (chars "cwd", chars "/tmp")] (.completes [111, 107] [] 0)).1 = .blocks [t] ∧
      (∀ er evs, run_shell_command S0 (chars "/") (chars "bash") (chars "ls")
          (chars "/tmp") (.completes [111, 107] [] 0) = (.err er, evs) →
        t = chars "Error: " ++ strOfError er) ∧
      (∀ r evs, run_shell_command S0 (chars "/") (chars "bash") (chars "ls")
          (chars "/tmp") (.completes [111, 107] [] 0) = (.ok r, evs) →
        t = strOfResult r ∧ parseResult t = some r) :=
  ⟨⟨by decide, by decide, by decide⟩,
   claim_c7_single_block_error_or_serialized S0 (chars "/")
     [(chars "command", chars "ls"), (chars "shell", chars "bash"),
      (chars "cwd", chars "/tmp")] (.completes [111, 107] [] 0)
     (chars "ls") (chars "bash") (chars "/tmp") (by decide) (by decide) (by decide)⟩

/-- C8 counterexample: with the filesystem holding a symbolic link
`/link -> /real`, the configured entry for directory `/link` is stored as
`/link` itself — `os.path.abspath` is purely lexical, so the entry is not in
symlink-resolved canonical form. -/
theorem claim_c8_counterexample :
    (Settings.make 30 (chars "/") [chars "/link"] []).ALLOWED_DIRECTORIES =
      [chars "/link"] ∧
    resolveLinks [(chars "/link", chars "/real")] (chars "/link") ≠ chars "/link" := by
  decide

/-- C8 (amended): every entry of ALLOWED_DIRECTORIES is exactly
`os.path.abspath` of a configured directory (given an absolute process
working directory): it starts with a slash and consists of slash-separated
segments none of which is empty, `.` or `..` — absolute and
relative-segment-normalized, but with symbolic links not resolved. -/
theorem claim_c8_entries_absolute_segment_normalized
    (ct : Nat) (osCwd : Str) (dirs : List Str) (shells : List (Str × Str))
    (h : pyStartswith osCwd (chars "/") = true) :
    (Settings.make ct osCwd dirs shells).ALLOWED_DIRECTORIES = dirs.map (abspath osCwd) ∧
    ∀ e ∈ (Settings.make ct osCwd dirs shells).ALLOWED_DIRECTORIES,
      pyStartswith e (chars "/") = true ∧
      ∃ k comps, 1 ≤ k ∧
        (∀ x ∈ comps, x ≠ [] ∧ x ≠ chars "." ∧ x ≠ chars "..") ∧
        e = List.replicate k '/' ++ joinComps '/' comps := by
  refine ⟨rfl, ?_⟩
  intro e he
  simp only [Settings.make, List.mem_map] at he
  obtain ⟨d, -, rfl⟩ := he
  obtain ⟨k, comps, hk, hcomps, heq⟩ := abspath_abs_form osCwd d h
  refine ⟨?_, k, comps, hk, hcomps, heq⟩
  rw [heq]
  exact startswith_replicate_slash k hk _

theorem claim_c8_entries_absolute_segment_normalized_witness :
    pyStartswith (chars "/home/u") (chars "/") = true ∧
    ((Settings.make 30 (chars "/home/u") [chars "x/../y/", chars "/tmp"] []).ALLOWED_DIRECTORIES =
      [chars "x/../y/", chars "/tmp"].map (abspath (chars "/home/u")) ∧
    ∀ e ∈ (Settings.make 30 (chars "/home/u") [chars "x/../y/", chars "/tmp"] []).ALLOWED_DIRECTORIES,
      pyStartswith e (chars "/") = true ∧
      ∃ k comps, 1 ≤ k ∧
        (∀ x ∈ comps, x ≠ [] ∧ x ≠ chars "." ∧ x ≠ chars "..") ∧
        e = List.replicate k '/' ++ joinComps '/' comps) :=
  ⟨by decide,
   claim_c8_entries_absolute_segment_normalized 30 (chars "/home/u")
     [chars "x/../y/", chars "/tmp"] [] (by decide)⟩

/-- C9 counterexample: a completed process whose captured stdout is the
invalid UTF-8 byte 0xFF does not get a replaced or preserved decoding — the
strict decode fails and the call degrades to the catch-all result with empty
stdout and exit code -1 (the real exit status 0 is lost). -/
theorem claim_c9_counterexample :
    ((run_shell_command S0 (chars "/") (chars "bash") (chars "cat f") (chars "/tmp")
        (.completes [255] [] 0)).1.ok?.map
      (fun r => (r.stdout, r.exit_code))) = some ([], -1) := by
  decide

/-- C9 (amended): decoding of captured bytes is strict UTF-8, not best-effort:
when both captured streams decode (the decoder accepting exactly the valid
byte sequences, non-ASCII included), the result dictionary carries exactly the
decoded texts and the real exit code; when the stdout bytes do not decode, the
strict failure is converted by the catch-all into the degraded result with
empty stdout and exit code -1 rather than a replaced or preserved decoding. -/
theorem claim_c9_strict_decode_roundtrip
    (S : Settings) (osCwd shell command cwd p : Str)
    (outBytes errBytes : List Nat) (rc : Int)
    (hcwd : S.is_path_allowed osCwd cwd = true)
    (hsh : dictLookup S.ALLOWED_SHELLS shell = some p) :
    (∀ o e, utf8DecodeList outBytes = some o → utf8DecodeList errBytes = some e →
      run_shell_command S osCwd shell command cwd (.completes outBytes errBytes rc) =
        (.ok ⟨o, e, rc, command, shell, cwd⟩,
         [.spawn [p, chars "-c", command] cwd])) ∧
    (utf8DecodeList outBytes = none →
      ∃ m, run_shell_command S osCwd shell command cwd (.completes outBytes errBytes rc) =
        (.ok ⟨[], m, -1, command, shell, cwd⟩,
         [.spawn [p, chars "-c", command] cwd])) := by
  constructor
  · intro o e ho he
    have hdo : decodeStream outBytes = .ok o := by
      by_cases hob : outBytes = []
      · subst hob
        have h0 : some ([] : Str) = some o := ho
        have h1 : o = [] := (Option.some_inj.mp h0).symm
        subst h1
        rfl
      · rw [decodeStream, if_neg hob, ho]
    have hde : decodeStream errBytes = .ok e := by
      by_cases heb : errBytes = []
      · subst heb
        have h0 : some ([] : Str) = some e := he
        have h1 : e = [] := (Option.some_inj.mp h0).symm
        subst h1
        rfl
      · rw [decodeStream, if_neg heb, he]
    simp [run_shell_command, hcwd, hsh, hdo, hde]
  · intro ho
    have hob : outBytes ≠ [] := by
      intro hcontra
      rw [hcontra] at ho
      have h0 : some ([] : Str) = none := ho
      cases h0
    have hdo : decodeStream outBytes =
        .error (.unicodeDecodeError (chars "\x27utf-8\x27 codec can\x27t decode")) := by
      rw [decodeStream, if_neg hob, ho]
    exact ⟨chars "\x27utf-8\x27 codec can\x27t decode",
      by simp [run_shell_command, hcwd, hsh, hdo, strOfError]⟩

theorem claim_c9_strict_decode_roundtrip_witness :
    (S0.is_path_allowed (chars "/") (chars "/tmp") = true ∧
      dictLookup S0.ALLOWED_SHELLS (chars "bash") = some (chars "/bin/bash") ∧
      utf8DecodeList [195, 177, 195, 167, 195, 169, 10] = some (chars "ñçé\n") ∧
      utf8DecodeList [] = some (chars "")) ∧
    run_shell_command S0 (chars "/") (chars "bash") (chars "echo \x22ñçé\x22")
        (chars "/tmp") (.completes [195, 177, 195, 167, 195, 169, 10] [] 0) =
      (.ok ⟨chars "ñçé\n", chars "", 0, chars "echo \x22ñçé\x22", chars "bash",
        chars "/tmp"⟩,
       [.spawn [chars "/bin/bash", chars "-c", chars "echo \x22ñçé\x22"] (chars "/tmp")]) :=
  ⟨⟨by decide, by decide, by decide, by decide⟩,
   (claim_c9_strict_decode_roundtrip S0 (chars "/") (chars "bash")
     (chars "echo \x22ñçé\x22") (chars "/tmp") (chars "/bin/bash")
     [195, 177, 195, 167, 195, 169, 10] [] 0 (by decide) (by decide)).1
     (chars "ñçé\n") (chars "") (by decide) (by decide)⟩

/-- C10: a tool call whose name is not `execute_command` is answered with the
single block "Error: Unknown tool <name>", for every argument object (even one
with no fields at all) and every process behavior, with no process event —
the branch is decided before the required fields are accessed. -/
theorem claim_c10_unknown_tool_single_error_block
    (S : Settings) (osCwd name : Str) (args : List (Str × Str)) (beh : ProcBehavior)
    (h : name ≠ chars "execute_command") :
    call_tool S osCwd name args beh =
      (.blocks [chars "Error: Unknown tool " ++ name], []) := by
  simp [call_tool, h]

theorem claim_c10_unknown_tool_single_error_block_witness :
    chars "other_tool" ≠ chars "execute_command" ∧
    call_tool S0 (chars "/") (chars "other_tool") [] (.hangs false) =
      (.blocks [chars "Error: Unknown tool other_tool"], []) :=
  ⟨by decide,
   claim_c10_unknown_tool_single_error_block S0 (chars "/") (chars "other_tool") []
     (.hangs false) (by decide)⟩
